import Mathlib

/-!
Verification of the EDF header reader (`src/reader.rs`, `src/error.rs`).

The reader is shallowly embedded: the byte stream is a `List Nat` of byte
values, each Rust `read_*` helper becomes a function consuming a prefix of
the stream, and Rust's three ways out of a function (an `Ok` value, a typed
`Err` propagated with `?`, and a process-aborting `panic!`/`expect`) become
the three constructors of `RR`.  Third-party behaviour that the reader
relies on (`String::from_utf8`, `str::trim_end`, `str::parse` for integer
types, chrono's `%d.%m.%y` / `%H.%M.%S` parsing and `Datelike::with_year`)
is modelled byte-for-byte from the documented behaviour of those functions
on the byte strings that can occur here.  Non-ASCII Unicode whitespace
(which `trim_end` and chrono's numeric-field whitespace skipping would also
accept) is not modelled; all whitespace handling is at the ASCII byte level.
-/

set_option maxRecDepth 100000

namespace Edf

/-- A byte stream: the contents of the file, each entry one byte (0–255). -/
abbrev Stream := List Nat

/-- The header-specific error cause (`error.rs`, enum `HeaderError`). -/
inductive HeaderError where
  | invalidVersion
deriving DecidableEq

/-- The error taxonomy of `error.rs`, enum `ErrorKind`: I/O failure,
invalid UTF-8, or a header-domain error. -/
inductive ErrorKind where
  | io
  | utf8
  | header : HeaderError → ErrorKind
deriving DecidableEq

/-- Outcome of a reader step: a value together with the rest of the stream,
a typed recoverable error (Rust `Err` propagated with `?`), or a process
abort (Rust `panic!` / `.expect(msg)`), carrying the panic message. -/
inductive RR (α : Type) where
  | ok : α → Stream → RR α
  | err : ErrorKind → RR α
  | panic : String → RR α
deriving DecidableEq

/-- Sequencing of reader steps: the stream left by one step feeds the next;
errors and panics propagate (Rust `?` and unwinding). -/
def RR.bind {α β : Type} : RR α → (α → Stream → RR β) → RR β
  | .ok a f, k => k a f
  | .err e, _ => .err e
  | .panic m, _ => .panic m

/-- Rust `Read::read_exact` into an `n`-byte buffer: the first `n` bytes and
the remaining stream, or `none` when the stream is too short (an I/O error). -/
def readExact (n : Nat) (f : Stream) : Option (List Nat × Stream) :=
  if n ≤ f.length then some (f.take n, f.drop n) else none

/-- ASCII whitespace bytes, as trimmed by `str::trim_end` (the non-ASCII
Unicode whitespace characters are not modelled). -/
def isAsciiWs (b : Nat) : Bool :=
  decide (b = 9 ∨ b = 10 ∨ b = 11 ∨ b = 12 ∨ b = 13 ∨ b = 32)

/-- Rust `str::trim_end` on the bytes of an ASCII string: drop trailing
whitespace. -/
def trimEndBytes (s : List Nat) : List Nat :=
  (s.reverse.dropWhile isAsciiWs).reverse

/-- An ASCII decimal digit byte. -/
def isDigit (b : Nat) : Bool :=
  decide (48 ≤ b ∧ b ≤ 57)

/-- Numeric value of a digit byte. -/
def digitVal (b : Nat) : Nat := b - 48

/-- A non-empty all-digit byte string read as a decimal number; `none`
otherwise. -/
def parseDigits (l : List Nat) : Option Nat :=
  if l = [] then none
  else if l.all isDigit then some (l.foldl (fun acc b => acc * 10 + digitVal b) 0)
  else none

/-- Rust `str::parse::<T>()` for an unsigned integer type with maximum value
`maxVal`: an optional leading `'+'`, then one or more digits, rejecting
overflow. -/
def rustParseUnsigned (maxVal : Nat) (s : List Nat) : Option Nat :=
  let t := match s with
    | 43 :: rest => rest
    | _ => s
  match parseDigits t with
  | some v => if v ≤ maxVal then some v else none
  | none => none

/-- Maximum value of Rust `usize` (64-bit target). -/
def usizeMax : Nat := 2 ^ 64 - 1

/-- Maximum value of Rust `u32`. -/
def u32Max : Nat := 2 ^ 32 - 1

/-- Rust `str::parse::<isize>()` (64-bit target): an optional sign, then one
or more digits, rejecting overflow. -/
def rustParseIsize (s : List Nat) : Option Int :=
  match s with
  | 45 :: rest =>
    match parseDigits rest with
    | some v => if (v : Int) ≤ 2 ^ 63 then some (-(v : Int)) else none
    | none => none
  | 43 :: rest =>
    match parseDigits rest with
    | some v => if (v : Int) ≤ 2 ^ 63 - 1 then some (v : Int) else none
    | none => none
  | _ =>
    match parseDigits s with
    | some v => if (v : Int) ≤ 2 ^ 63 - 1 then some (v : Int) else none
    | none => none

/-- Rust `str::split_once('.')` specialised to the `"."` pattern used by
`read_duration`: the part before the first `'.'` byte and the part after it,
or `none` when there is no `'.'`. -/
def splitOnceDot : List Nat → Option (List Nat × List Nat)
  | [] => none
  | 46 :: rest => some ([], rest)
  | b :: rest =>
    match splitOnceDot rest with
    | some (pre, post) => some (b :: pre, post)
    | none => none

/-- A UTF-8 continuation byte (`10xxxxxx`). -/
def isCont (b : Nat) : Bool :=
  decide (128 ≤ b ∧ b ≤ 191)

/-- Validity of a byte string as UTF-8, exactly the check performed by Rust
`String::from_utf8` (shortest-form encodings only, surrogates and values
above U+10FFFF rejected). -/
def validUtf8 : List Nat → Bool
  | [] => true
  | b :: rest =>
    if b ≤ 127 then validUtf8 rest
    else if 194 ≤ b ∧ b ≤ 223 then
      match rest with
      | c1 :: rest1 => isCont c1 && validUtf8 rest1
      | [] => false
    else if b = 224 then
      match rest with
      | c1 :: c2 :: rest2 =>
        decide (160 ≤ c1 ∧ c1 ≤ 191) && isCont c2 && validUtf8 rest2
      | _ => false
    else if (225 ≤ b ∧ b ≤ 236) ∨ b = 238 ∨ b = 239 then
      match rest with
      | c1 :: c2 :: rest2 => isCont c1 && isCont c2 && validUtf8 rest2
      | _ => false
    else if b = 237 then
      match rest with
      | c1 :: c2 :: rest2 =>
        decide (128 ≤ c1 ∧ c1 ≤ 159) && isCont c2 && validUtf8 rest2
      | _ => false
    else if b = 240 then
      match rest with
      | c1 :: c2 :: c3 :: rest3 =>
        decide (144 ≤ c1 ∧ c1 ≤ 191) && isCont c2 && isCont c3 && validUtf8 rest3
      | _ => false
    else if 241 ≤ b ∧ b ≤ 243 then
      match rest with
      | c1 :: c2 :: c3 :: rest3 =>
        isCont c1 && isCont c2 && isCont c3 && validUtf8 rest3
      | _ => false
    else if b = 244 then
      match rest with
      | c1 :: c2 :: c3 :: rest3 =>
        decide (128 ≤ c1 ∧ c1 ≤ 143) && isCont c2 && isCont c3 && validUtf8 rest3
      | _ => false
    else false

/-- A calendar date, as chrono's `NaiveDate` (year, month, day).  The parser
only ever builds years between 1900 and 2168, so the year is a `Nat`. -/
structure NaiveDate where
  year : Nat
  month : Nat
  day : Nat
deriving DecidableEq

/-- A time of day, as chrono's `NaiveTime` (hour, minute, second).  Chrono's
leap-second representation (second = 60 with a nanosecond overflow) is not
modelled; only second values 0–59 are accepted. -/
structure NaiveTime where
  hour : Nat
  minute : Nat
  second : Nat
deriving DecidableEq

/-- Chrono's `NaiveDateTime`: a date paired with a time of day. -/
structure NaiveDateTime where
  date : NaiveDate
  time : NaiveTime
deriving DecidableEq

/-- Gregorian leap year. -/
def isLeap (y : Nat) : Bool :=
  (y % 4 == 0 && y % 100 != 0) || y % 400 == 0

/-- Number of days in a month of a given year. -/
def daysInMonth (y m : Nat) : Nat :=
  if m = 2 then (if isLeap y then 29 else 28)
  else if m = 4 ∨ m = 6 ∨ m = 9 ∨ m = 11 then 30
  else 31

/-- Chrono's date validity check: `NaiveDate::from_ymd_opt`-style
construction, `none` for an out-of-range month or day. -/
def mkValidDate (y m d : Nat) : Option NaiveDate :=
  if 1 ≤ m ∧ m ≤ 12 ∧ 1 ≤ d ∧ d ≤ daysInMonth y m then some ⟨y, m, d⟩ else none

/-- Chrono's `Datelike::with_year`: same month and day in another year,
`none` when that date does not exist (Feb 29 of a non-leap year). -/
def NaiveDate.with_year (d : NaiveDate) (y : Nat) : Option NaiveDate :=
  mkValidDate y d.month d.day

/-- Leading-whitespace skipping chrono performs before a numeric field. -/
def dropLeadingWs (s : List Nat) : List Nat :=
  s.dropWhile isAsciiWs

/-- Chrono's numeric-field scanner for a width-2 field (`%d`, `%m`, `%y`,
`%H`, `%M`, `%S`): one or two digit bytes, greedy, with the value and the
unconsumed rest. -/
def takeDigits2 : List Nat → Option (Nat × List Nat)
  | [] => none
  | a :: rest =>
    if isDigit a then
      match rest with
      | b :: rest2 =>
        if isDigit b then some (digitVal a * 10 + digitVal b, rest2)
        else some (digitVal a, rest)
      | [] => some (digitVal a, [])
    else none

/-- A chrono width-2 numeric field: skip leading whitespace, then one or two
digits. -/
def chronoNum2 (s : List Nat) : Option (Nat × List Nat) :=
  takeDigits2 (dropLeadingWs s)

/-- The literal `'.'` between the numeric fields of `%d.%m.%y` and
`%H.%M.%S`. -/
def expectDot : List Nat → Option (List Nat)
  | 46 :: rest => some rest
  | _ => none

/-- The scanning phase of chrono's `parse_from_str` for three width-2
numeric fields separated by literal dots, requiring the whole input to be
consumed (chrono's `TOO_LONG` otherwise). -/
def chronoScan3 (s : List Nat) : Option (Nat × Nat × Nat) :=
  (chronoNum2 s).bind fun p1 =>
  (expectDot p1.2).bind fun s2 =>
  (chronoNum2 s2).bind fun p2 =>
  (expectDot p2.2).bind fun s4 =>
  (chronoNum2 s4).bind fun p3 =>
  if p3.2 = [] then some (p1.1, p2.1, p3.1) else none

/-- Chrono's two-digit-year convention for `%y` (POSIX): 69–99 are the
1900s, 00–68 the 2000s. -/
def chronoResolveY (yy : Nat) : Nat :=
  if 69 ≤ yy then 1900 + yy else 2000 + yy

/-- Chrono `NaiveDate::parse_from_str(s, "%d.%m.%y")`: scan day, month and
two-digit year, resolve the century, and validate the calendar date. -/
def chronoParseDate (s : List Nat) : Option NaiveDate :=
  (chronoScan3 s).bind fun t => mkValidDate (chronoResolveY t.2.2) t.2.1 t.1

/-- Chrono `NaiveTime::parse_from_str(s, "%H.%M.%S")`: scan hour, minute and
second and validate the ranges (leap second 60 not modelled). -/
def chronoParseTime (s : List Nat) : Option NaiveTime :=
  (chronoScan3 s).bind fun t =>
    if t.1 < 24 ∧ t.2.1 < 60 ∧ t.2.2 < 60 then some ⟨t.1, t.2.1, t.2.2⟩ else none

/-- Outcome of a pure Rust function returning `Result<α, E>` that may also
panic: the `Err` payload is irrelevant here (chrono's `ParseError`), so only
the three shapes are kept. -/
inductive PRes (α : Type) where
  | ok : α → PRes α
  | err : PRes α
  | panic : String → PRes α
deriving DecidableEq

namespace Reader

/-- The `reader.rs` helper `Reader::parse_start_date`: chrono `%d.%m.%y`
parsing followed by the 1985 clipping rule — a parsed year below 1985 has
100 added via `with_year`, whose `None` case is `unwrap`ped (a panic).
Chrono parse failure is the function's `Err`. -/
def parse_start_date (s : List Nat) : PRes NaiveDate :=
  match chronoParseDate s with
  | none => .err
  | some date =>
    if date.year < 1985 then
      match date.with_year (date.year + 100) with
      | some d => .ok d
      | none => .panic "called Option::unwrap on a None value"
    else .ok date

/-- The `reader.rs` function `Reader::read_version`: 8 bytes, the first must
be ASCII `'0'` (48) and the remaining seven ASCII space (32); any deviation
is the typed `Header` error.  No UTF-8 decoding happens here. -/
def read_version (f : Stream) : RR Unit :=
  match readExact 8 f with
  | none => .err .io
  | some (buf, f1) =>
    if buf.getD 0 0 ≠ 48 then .err (.header .invalidVersion)
    else if (buf.drop 1).all (fun b => b == 32) then .ok () f1
    else .err (.header .invalidVersion)

/-- The `reader.rs` function `Reader::read_patient_info`: 80 bytes decoded
by `String::from_utf8`, invalid UTF-8 propagating as a typed error. -/
def read_patient_info (f : Stream) : RR (List Nat) :=
  match readExact 80 f with
  | none => .err .io
  | some (buf, f1) => if validUtf8 buf then .ok buf f1 else .err .utf8

/-- The `reader.rs` function `Reader::read_recording_id`: 80 bytes decoded
by `String::from_utf8`. -/
def read_recording_id (f : Stream) : RR (List Nat) :=
  match readExact 80 f with
  | none => .err .io
  | some (buf, f1) => if validUtf8 buf then .ok buf f1 else .err .utf8

/-- The `reader.rs` function `Reader::read_start_date`: 8 bytes, UTF-8
decoded, then `parse_start_date` with its `Err` case `.expect`ed — a chrono
parse failure aborts with the message `Invalid start time`. -/
def read_start_date (f : Stream) : RR NaiveDate :=
  match readExact 8 f with
  | none => .err .io
  | some (buf, f1) =>
    if validUtf8 buf then
      match parse_start_date buf with
      | .ok d => .ok d f1
      | .err => .panic "Invalid start time"
      | .panic m => .panic m
    else .err .utf8

/-- The `reader.rs` function `Reader::read_start_time`: 8 bytes, UTF-8
decoded, chrono `%H.%M.%S` parsing with failure `.expect`ed (a panic). -/
def read_start_time (f : Stream) : RR NaiveTime :=
  match readExact 8 f with
  | none => .err .io
  | some (buf, f1) =>
    if validUtf8 buf then
      match chronoParseTime buf with
      | some t => .ok t f1
      | none => .panic "Invalid start time"
    else .err .utf8

/-- The `reader.rs` function `Reader::read_header_size`: 8 bytes, UTF-8
decoded, trailing whitespace trimmed, parsed as `usize` with failure
`.expect`ed (a panic). -/
def read_header_size (f : Stream) : RR Nat :=
  match readExact 8 f with
  | none => .err .io
  | some (buf, f1) =>
    if validUtf8 buf then
      match rustParseUnsigned usizeMax (trimEndBytes buf) with
      | some n => .ok n f1
      | none => .panic "Could not parse header size"
    else .err .utf8

/-- The `reader.rs` function `Reader::read_reserved`: 44 bytes decoded by
`String::from_utf8`. -/
def read_reserved (f : Stream) : RR (List Nat) :=
  match readExact 44 f with
  | none => .err .io
  | some (buf, f1) => if validUtf8 buf then .ok buf f1 else .err .utf8

/-- The `reader.rs` function `Reader::read_records_len`: 8 bytes, UTF-8
decoded, trimmed and parsed as `isize` with failure `.expect`ed; `-1` maps
to `none` (unknown count), a positive value to `some`, and any other value
aborts with `Record length cannot be negative`. -/
def read_records_len (f : Stream) : RR (Option Nat) :=
  match readExact 8 f with
  | none => .err .io
  | some (buf, f1) =>
    if validUtf8 buf then
      match rustParseIsize (trimEndBytes buf) with
      | none => .panic "Could not parse number of records"
      | some n =>
        if n = -1 then .ok none f1
        else if 0 < n then .ok (some n.toNat) f1
        else .panic "Record length cannot be negative"
    else .err .utf8

/-- The `reader.rs` function `Reader::read_duration`: 8 bytes, UTF-8
decoded and trimmed; with no `'.'` the whole text is parsed as `usize`;
with a `'.'` the fractional part must parse as a `u8` equal to 0 (any other
`u8` aborts as unimplemented, an unparsable fraction aborts too), and the
integer part is parsed as `usize`; parse failure of the chosen text
aborts. -/
def read_duration (f : Stream) : RR Nat :=
  match readExact 8 f with
  | none => .err .io
  | some (buf, f1) =>
    if validUtf8 buf then
      match splitOnceDot (trimEndBytes buf) with
      | none =>
        match rustParseUnsigned usizeMax (trimEndBytes buf) with
        | some n => .ok n f1
        | none => .panic "Could not parse duration"
      | some (characteristic, mantissa) =>
        match rustParseUnsigned 255 mantissa with
        | some 0 =>
          match rustParseUnsigned usizeMax characteristic with
          | some n => .ok n f1
          | none => .panic "Could not parse duration"
        | some _ => .panic "Unimplemented parsing of float durations"
        | none => .panic "Could not parse mantissa of duration"
    else .err .utf8

/-- The `reader.rs` function `Reader::read_signals_len`: 4 bytes, UTF-8
decoded, trimmed and parsed as `u32` with failure `.expect`ed (a panic). -/
def read_signals_len (f : Stream) : RR Nat :=
  match readExact 4 f with
  | none => .err .io
  | some (buf, f1) =>
    if validUtf8 buf then
      match rustParseUnsigned u32Max (trimEndBytes buf) with
      | some n => .ok n f1
      | none => .panic "Could not parse number of signals"
    else .err .utf8

end Reader

/-- The `Header` struct of `reader.rs`: the decoded file metadata.  Rust
`String` fields are kept as their UTF-8 byte lists. -/
structure Header where
  patient_info : List Nat
  recording_id : List Nat
  start_datetime : NaiveDateTime
  size : Nat
  reserved : List Nat
  records_len : Option Nat
  duration : Nat
  signals_len : Nat
deriving DecidableEq

/-- The `Header::new` constructor: combines the start date and start time
into `start_datetime` (chrono `NaiveDateTime::new`). -/
def Header.new (patient_info recording_id : List Nat) (start_date : NaiveDate)
    (start_time : NaiveTime) (size : Nat) (reserved : List Nat)
    (records_len : Option Nat) (duration : Nat) (signals_len : Nat) : Header :=
  { patient_info := patient_info
    recording_id := recording_id
    start_datetime := ⟨start_date, start_time⟩
    size := size
    reserved := reserved
    records_len := records_len
    duration := duration
    signals_len := signals_len }

namespace Reader

/-- The `reader.rs` function `Reader::read_header`: the ten field reads in
order, each consuming its fixed width from the stream, assembled with
`Header::new`; the first error or panic aborts the whole parse. -/
def read_header (f : Stream) : RR Header :=
  RR.bind (read_version f) fun _ f1 =>
  RR.bind (read_patient_info f1) fun patient_info f2 =>
  RR.bind (read_recording_id f2) fun recording_id f3 =>
  RR.bind (read_start_date f3) fun start_date f4 =>
  RR.bind (read_start_time f4) fun start_time f5 =>
  RR.bind (read_header_size f5) fun size f6 =>
  RR.bind (read_reserved f6) fun reserved f7 =>
  RR.bind (read_records_len f7) fun records_len f8 =>
  RR.bind (read_duration f8) fun duration f9 =>
  RR.bind (read_signals_len f9) fun signals_len f10 =>
  RR.ok (Header.new patient_info recording_id start_date start_time size
    reserved records_len duration signals_len) f10

end Reader

/-- Bytes of an ASCII string literal. -/
def ascii (s : String) : List Nat :=
  s.data.map Char.toNat

/-- Decimal rendering of a number, as Rust's `Display` for unsigned
integers. -/
def natToBytes (n : Nat) : List Nat :=
  ascii (Nat.repr n)

/-- Zero-padding to a minimum width, as chrono's `%02d`-style fields. -/
def padZeros (w n : Nat) : List Nat :=
  List.replicate (w - (natToBytes n).length) 48 ++ natToBytes n

/-- Chrono's `Display` for `NaiveDateTime`:
`YYYY-MM-DD HH:MM:SS` (fractional seconds absent here, seconds are whole). -/
def NaiveDateTime.display (dt : NaiveDateTime) : List Nat :=
  padZeros 4 dt.date.year ++ ascii "-" ++ padZeros 2 dt.date.month ++ ascii "-" ++
  padZeros 2 dt.date.day ++ ascii " " ++ padZeros 2 dt.time.hour ++ ascii ":" ++
  padZeros 2 dt.time.minute ++ ascii ":" ++ padZeros 2 dt.time.second

/-- The `impl fmt::Display for Header` of `reader.rs`: the exact format
string `"\n## Header\n{}\nRecording ID: {}\nStart Time: {}\nSize of header:
{} B\nReserved: {}\n{} data records\n{} seconds\n{} signals"`, with a
`records_len` of `None` rendered as `-1`. -/
def Header.display (h : Header) : List Nat :=
  ascii "\n## Header\n" ++ h.patient_info ++
  ascii "\nRecording ID: " ++ h.recording_id ++
  ascii "\nStart Time: " ++ h.start_datetime.display ++
  ascii "\nSize of header: " ++ natToBytes h.size ++ ascii " B" ++
  ascii "\nReserved: " ++ h.reserved ++
  ascii "\n" ++ (match h.records_len with
    | none => ascii "-1"
    | some v => natToBytes v) ++ ascii " data records" ++
  ascii "\n" ++ natToBytes h.duration ++ ascii " seconds" ++
  ascii "\n" ++ natToBytes h.signals_len ++ ascii " signals"

/-- Modelled from the spec: the canonical human-readable rendering given by
the spec's output-surface template, which starts directly with the line
`## Header` (no leading blank line) and is otherwise the same sequence of
lines as the code's rendering. -/
def specCanonicalRendering (h : Header) : List Nat :=
  ascii "## Header\n" ++ h.patient_info ++
  ascii "\nRecording ID: " ++ h.recording_id ++
  ascii "\nStart Time: " ++ h.start_datetime.display ++
  ascii "\nSize of header: " ++ natToBytes h.size ++ ascii " B" ++
  ascii "\nReserved: " ++ h.reserved ++
  ascii "\n" ++ (match h.records_len with
    | none => ascii "-1"
    | some v => natToBytes v) ++ ascii " data records" ++
  ascii "\n" ++ natToBytes h.duration ++ ascii " seconds" ++
  ascii "\n" ++ natToBytes h.signals_len ++ ascii " signals"

/-- Space-padding of a field value to its fixed width, as EDF files do. -/
def padField (w : Nat) (s : String) : List Nat :=
  ascii s ++ List.replicate (w - s.length) 32

/-- The well-formed 256-byte header stream of the spec's end-to-end
scenario. -/
def exampleStream : Stream :=
  ascii "0       " ++ padField 80 "PAT1" ++ padField 80 "REC1" ++
  ascii "02.03.95" ++ ascii "10.00.00" ++ padField 8 "256" ++
  List.replicate 44 32 ++ padField 8 "-1" ++ padField 8 "1" ++ padField 4 "4"

/-- The header the end-to-end scenario is expected to produce. -/
def exampleHeader : Header :=
  { patient_info := padField 80 "PAT1"
    recording_id := padField 80 "REC1"
    start_datetime := ⟨⟨1995, 3, 2⟩, ⟨10, 0, 0⟩⟩
    size := 256
    reserved := List.replicate 44 32
    records_len := none
    duration := 1
    signals_len := 4 }

/-- The same stream with the records_len field replaced by `"0       "`,
which the spec calls a fatal validation error. -/
def zeroRecordsStream : Stream :=
  ascii "0       " ++ padField 80 "PAT1" ++ padField 80 "REC1" ++
  ascii "02.03.95" ++ ascii "10.00.00" ++ padField 8 "256" ++
  List.replicate 44 32 ++ padField 8 "0" ++ padField 8 "1" ++ padField 4 "4"

/-- The two-digit texts `DD`, appearing in a `DD.MM.YY` date field. -/
def pad2 (n : Nat) : List Nat :=
  [48 + n / 10, 48 + n % 10]

/-- The 8-byte date text `DD.MM.YY` built from numeric components. -/
def dateText (dd mm yy : Nat) : List Nat :=
  pad2 dd ++ 46 :: (pad2 mm ++ 46 :: pad2 yy)

/-! Helper lemmas about the embedding. -/

theorem readExact_of_le {n : Nat} {f : Stream} (h : n ≤ f.length) :
    readExact n f = some (f.take n, f.drop n) := by
  simp [readExact, h]

theorem chronoNum2_pad2 (n : Nat) (hn : n < 100) (rest : List Nat) :
    chronoNum2 (pad2 n ++ rest) = some (n, rest) := by
  have h1 : n / 10 ≤ 9 := by omega
  have h2 : n % 10 ≤ 9 := by omega
  have hw : isAsciiWs (48 + n / 10) = false := by
    simp only [isAsciiWs, decide_eq_false_iff_not]
    omega
  have hd1 : isDigit (48 + n / 10) = true := by
    simp only [isDigit, decide_eq_true_eq]
    omega
  have hd2 : isDigit (48 + n % 10) = true := by
    simp only [isDigit, decide_eq_true_eq]
    omega
  simp only [pad2, chronoNum2, dropLeadingWs, List.cons_append, List.nil_append,
    List.dropWhile_cons, hw, Bool.false_eq_true, if_false, takeDigits2, hd1, hd2,
    if_true, digitVal]
  simp only [Option.some.injEq, Prod.mk.injEq, and_true]
  omega

theorem chronoScan3_dateText (dd mm yy : Nat) (h1 : dd < 100) (h2 : mm < 100)
    (h3 : yy < 100) :
    chronoScan3 (dateText dd mm yy) = some (dd, mm, yy) := by
  have e1 := chronoNum2_pad2 dd h1 (46 :: (pad2 mm ++ 46 :: pad2 yy))
  have e2 := chronoNum2_pad2 mm h2 (46 :: pad2 yy)
  have e3 := chronoNum2_pad2 yy h3 []
  rw [List.append_nil] at e3
  simp [chronoScan3, dateText, e1, e2, e3, expectDot]

theorem mkValidDate_eq_some {y m d : Nat} {date : NaiveDate}
    (h : mkValidDate y m d = some date) : date = ⟨y, m, d⟩ := by
  unfold mkValidDate at h
  split at h
  · exact (Option.some.injEq _ _ ▸ h).symm
  · exact absurd h (by simp)

theorem chronoParseDate_dateText (dd mm yy : Nat) (h1 : dd < 100) (h2 : mm < 100)
    (h3 : yy < 100) :
    chronoParseDate (dateText dd mm yy) = mkValidDate (chronoResolveY yy) mm dd := by
  unfold chronoParseDate
  rw [chronoScan3_dateText dd mm yy h1 h2 h3]
  rfl

theorem chronoParseDate_year_lb {s : List Nat} {date : NaiveDate}
    (h : chronoParseDate s = some date) : 1900 ≤ date.year := by
  unfold chronoParseDate at h
  cases hsc : chronoScan3 s with
  | none => rw [hsc] at h; exact absurd h (by simp)
  | some t =>
    rw [hsc] at h
    have h2 : mkValidDate (chronoResolveY t.2.2) t.2.1 t.1 = some date := h
    have h3 := mkValidDate_eq_some h2
    subst h3
    simp only [chronoResolveY]
    split <;> omega

theorem parse_start_date_year_ge {s : List Nat} {d : NaiveDate}
    (h : Reader.parse_start_date s = .ok d) : 1985 ≤ d.year := by
  unfold Reader.parse_start_date at h
  split at h
  · exact absurd h (by simp)
  · rename_i date heq
    have hy := chronoParseDate_year_lb heq
    split at h
    · split at h
      · rename_i d2 hw
        unfold NaiveDate.with_year at hw
        have hd2 := mkValidDate_eq_some hw
        cases h
        subst hd2
        show 1985 ≤ date.year + 100
        omega
      · exact absurd h (by simp)
    · cases h
      omega

theorem RR.bind_eq_ok {α β : Type} {x : RR α} {k : α → Stream → RR β} {b : β}
    {fb : Stream} (h : RR.bind x k = .ok b fb) :
    ∃ a fa, x = .ok a fa ∧ k a fa = .ok b fb := by
  cases x with
  | ok a fa => exact ⟨a, fa, rfl, h⟩
  | err e => exact absurd h (by simp [RR.bind])
  | panic m => exact absurd h (by simp [RR.bind])

theorem read_version_eq (f : Stream) (h8 : 8 ≤ f.length) :
    Reader.read_version f =
      if (f.take 8).getD 0 0 ≠ 48 then .err (.header .invalidVersion)
      else if ((f.take 8).drop 1).all (fun b => b == 32) then .ok () (f.drop 8)
      else .err (.header .invalidVersion) := by
  unfold Reader.read_version
  rw [readExact_of_le h8]

theorem read_patient_info_ok {f : Stream} {pi : List Nat} {f1 : Stream}
    (h : Reader.read_patient_info f = .ok pi f1) : validUtf8 pi = true := by
  unfold Reader.read_patient_info at h
  split at h
  · exact absurd h (by simp)
  · split at h
    · cases h; assumption
    · exact absurd h (by simp)

theorem read_recording_id_ok {f : Stream} {ri : List Nat} {f1 : Stream}
    (h : Reader.read_recording_id f = .ok ri f1) : validUtf8 ri = true := by
  unfold Reader.read_recording_id at h
  split at h
  · exact absurd h (by simp)
  · split at h
    · cases h; assumption
    · exact absurd h (by simp)

theorem read_reserved_ok {f : Stream} {rv : List Nat} {f1 : Stream}
    (h : Reader.read_reserved f = .ok rv f1) : validUtf8 rv = true := by
  unfold Reader.read_reserved at h
  split at h
  · exact absurd h (by simp)
  · split at h
    · cases h; assumption
    · exact absurd h (by simp)

theorem read_start_date_ok {f : Stream} {d : NaiveDate} {f1 : Stream}
    (h : Reader.read_start_date f = .ok d f1) :
    ∃ s, Reader.parse_start_date s = .ok d := by
  unfold Reader.read_start_date at h
  split at h
  · exact absurd h (by simp)
  · rename_i p buf f2 heq
    split at h
    · split at h
      · rename_i d2 hps
        cases h
        exact ⟨buf, hps⟩
      · exact absurd h (by simp)
      · exact absurd h (by simp)
    · exact absurd h (by simp)

theorem read_header_ok_inv {f : Stream} {h : Header} {rest : Stream}
    (hok : Reader.read_header f = .ok h rest) :
    (∃ s, Reader.parse_start_date s = .ok h.start_datetime.date) ∧
    validUtf8 h.patient_info = true ∧ validUtf8 h.recording_id = true ∧
    validUtf8 h.reserved = true := by
  unfold Reader.read_header at hok
  obtain ⟨_, f1, h1, hok⟩ := RR.bind_eq_ok hok
  obtain ⟨pi, f2, h2, hok⟩ := RR.bind_eq_ok hok
  obtain ⟨ri, f3, h3, hok⟩ := RR.bind_eq_ok hok
  obtain ⟨sd, f4, h4, hok⟩ := RR.bind_eq_ok hok
  obtain ⟨st, f5, h5, hok⟩ := RR.bind_eq_ok hok
  obtain ⟨sz, f6, h6, hok⟩ := RR.bind_eq_ok hok
  obtain ⟨rv, f7, h7, hok⟩ := RR.bind_eq_ok hok
  obtain ⟨rl, f8, h8, hok⟩ := RR.bind_eq_ok hok
  obtain ⟨du, f9, h9, hok⟩ := RR.bind_eq_ok hok
  obtain ⟨sl, f10, h10, hok⟩ := RR.bind_eq_ok hok
  cases hok
  refine ⟨?_, ?_, ?_, ?_⟩
  · obtain ⟨s, hs⟩ := read_start_date_ok h4
    exact ⟨s, hs⟩
  · exact read_patient_info_ok h2
  · exact read_recording_id_ok h3
  · exact read_reserved_ok h7

/-! The claims. -/

/-- C1: for every valid start-date text `DD.MM.YY`, parsing yields year
`1900 + YY` when `YY ≥ 85` and year `2000 + YY` when `YY < 85` (so `85`
gives 1985 and `84` gives 2084). -/
theorem start_date_two_digit_year_clipping (dd mm yy : Nat) (h1 : dd < 100)
    (h2 : mm < 100) (h3 : yy < 100) (d : NaiveDate)
    (hok : Reader.parse_start_date (dateText dd mm yy) = .ok d) :
    d.year = if 85 ≤ yy then 1900 + yy else 2000 + yy := by
  unfold Reader.parse_start_date at hok
  rw [chronoParseDate_dateText dd mm yy h1 h2 h3] at hok
  split at hok
  · exact absurd hok (by simp)
  · rename_i date heq
    have hdate := mkValidDate_eq_some heq
    subst hdate
    split at hok
    · rename_i hlt
      have hlt2 : chronoResolveY yy < 1985 := hlt
      split at hok
      · rename_i d2 hw
        unfold NaiveDate.with_year at hw
        have hd2 := mkValidDate_eq_some hw
        cases hok
        subst hd2
        show chronoResolveY yy + 100 = if 85 ≤ yy then 1900 + yy else 2000 + yy
        simp only [chronoResolveY] at hlt2 ⊢
        split_ifs at hlt2 ⊢ <;> omega
      · exact absurd hok (by simp)
    · rename_i hge
      have hge2 : ¬chronoResolveY yy < 1985 := hge
      cases hok
      show chronoResolveY yy = if 85 ≤ yy then 1900 + yy else 2000 + yy
      simp only [chronoResolveY] at hge2 ⊢
      split_ifs at hge2 ⊢ <;> omega

/-- C1 witness: the date text `31.12.84` parses, and its year is
`2000 + 84 = 2084` as the clipping rule dictates. -/
theorem start_date_two_digit_year_clipping_witness :
    Reader.parse_start_date (dateText 31 12 84) = .ok ⟨2084, 12, 31⟩ ∧
    (⟨2084, 12, 31⟩ : NaiveDate).year = if 85 ≤ 84 then 1900 + 84 else 2000 + 84 :=
  ⟨by decide, start_date_two_digit_year_clipping 31 12 84 (by decide) (by decide)
    (by decide) ⟨2084, 12, 31⟩ (by decide)⟩

/-- C7: every byte stream from which a `Header` is successfully constructed
has a `start_datetime` whose year is at least 1985. -/
theorem header_year_ge_1985 (f : Stream) (h : Header) (rest : Stream)
    (hok : Reader.read_header f = .ok h rest) :
    1985 ≤ h.start_datetime.date.year := by
  obtain ⟨⟨s, hs⟩, -, -, -⟩ := read_header_ok_inv hok
  exact parse_start_date_year_ge hs

/-- C7 witness: the example stream parses successfully and its header's
year, 1995, is at least 1985. -/
theorem header_year_ge_1985_witness :
    1985 ≤ exampleHeader.start_datetime.date.year :=
  header_year_ge_1985 exampleStream exampleHeader [] (by decide)

/-- C6: the spec's end-to-end scenario parses successfully and produces a
header with start 1995-03-02 10:00:00, unknown record count, duration 1 and
4 signals. -/
theorem end_to_end_example :
    Reader.read_header exampleStream = .ok exampleHeader [] ∧
    exampleHeader.start_datetime = ⟨⟨1995, 3, 2⟩, ⟨10, 0, 0⟩⟩ ∧
    exampleHeader.records_len = none ∧ exampleHeader.duration = 1 ∧
    exampleHeader.signals_len = 4 :=
  ⟨by decide, by decide, by decide, by decide, by decide⟩

/-- C2 counterexample: on the concrete well-formed stream whose records_len
field is `"0       "`, the parse aborts with a panic instead of returning a
typed recoverable error value. -/
theorem malformed_records_len_panics :
    Reader.read_header zeroRecordsStream = .panic "Record length cannot be negative" := by
  decide

/-- C2 amended: an invalid version byte and invalid UTF-8 are returned as
typed recoverable errors, but an unparsable date text, an unparsable
records_len and a non-sentinel non-positive records_len abort with a panic
rather than a typed error. -/
theorem error_propagation_amended (f : Stream) :
    (8 ≤ f.length → (f.take 8).getD 0 0 ≠ 48 →
      Reader.read_version f = .err (.header .invalidVersion)) ∧
    (8 ≤ f.length → validUtf8 (f.take 8) = false →
      Reader.read_records_len f = .err .utf8) ∧
    (8 ≤ f.length → validUtf8 (f.take 8) = true →
      rustParseIsize (trimEndBytes (f.take 8)) = none →
      Reader.read_records_len f = .panic "Could not parse number of records") ∧
    (∀ n : Int, 8 ≤ f.length → validUtf8 (f.take 8) = true →
      rustParseIsize (trimEndBytes (f.take 8)) = some n → n ≠ -1 → n ≤ 0 →
      Reader.read_records_len f = .panic "Record length cannot be negative") ∧
    (8 ≤ f.length → validUtf8 (f.take 8) = true → chronoParseDate (f.take 8) = none →
      Reader.read_start_date f = .panic "Invalid start time") := by
  refine ⟨?_, ?_, ?_, ?_, ?_⟩
  · intro h8 hb
    rw [read_version_eq f h8, if_pos hb]
  · intro h8 hbad
    simp [Reader.read_records_len, readExact_of_le h8, hbad]
  · intro h8 hu hnone
    simp [Reader.read_records_len, readExact_of_le h8, hu, hnone]
  · intro n h8 hu hp hneg hle
    have hnpos : ¬(0 < n) := by omega
    simp [Reader.read_records_len, readExact_of_le h8, hu, hp, hneg, hnpos]
  · intro h8 hu hc
    simp [Reader.read_start_date, readExact_of_le h8, hu, Reader.parse_start_date, hc]

/-- C2 amended witness: a version field starting with `'X'` yields the
typed InvalidVersion error. -/
theorem error_propagation_amended_witness :
    Reader.read_version (ascii "X       ") = .err (.header .invalidVersion) :=
  (error_propagation_amended (ascii "X       ")).1 (by decide) (by decide)

/-- C3: an 8-byte records_len field whose trimmed text parses as the signed
integer `n` yields `None` for `n = -1`, `Some n` for positive `n`, and a
fatal (aborting) validation error otherwise. -/
theorem records_len_sentinel (f : Stream) (h8 : 8 ≤ f.length)
    (hu : validUtf8 (f.take 8) = true) (n : Int)
    (hp : rustParseIsize (trimEndBytes (f.take 8)) = some n) :
    Reader.read_records_len f =
      (if n = -1 then .ok none (f.drop 8)
       else if 0 < n then .ok (some n.toNat) (f.drop 8)
       else .panic "Record length cannot be negative") := by
  simp [Reader.read_records_len, readExact_of_le h8, hu, hp]

/-- C3 witness: the field text `"-1      "` yields an unknown record count
(`none`). -/
theorem records_len_sentinel_witness :
    Reader.read_records_len (ascii "-1      ") = .ok none [] := by
  have h := records_len_sentinel (ascii "-1      ") (by decide) (by decide) (-1) (by decide)
  exact h.trans (by decide)

/-- C4: an 8-byte duration field parses to its integer value when it has no
decimal point, to its integer part when the fractional part parses as the
8-bit integer 0, and aborts on any non-zero fractional part instead of
rounding. -/
theorem duration_parsing (f : Stream) (h8 : 8 ≤ f.length)
    (hu : validUtf8 (f.take 8) = true) :
    (∀ n, splitOnceDot (trimEndBytes (f.take 8)) = none →
      rustParseUnsigned usizeMax (trimEndBytes (f.take 8)) = some n →
      Reader.read_duration f = .ok n (f.drop 8)) ∧
    (∀ c m n, splitOnceDot (trimEndBytes (f.take 8)) = some (c, m) →
      rustParseUnsigned 255 m = some 0 →
      rustParseUnsigned usizeMax c = some n →
      Reader.read_duration f = .ok n (f.drop 8)) ∧
    (∀ c m v, splitOnceDot (trimEndBytes (f.take 8)) = some (c, m) →
      rustParseUnsigned 255 m = some v → v ≠ 0 →
      Reader.read_duration f = .panic "Unimplemented parsing of float durations") := by
  refine ⟨?_, ?_, ?_⟩
  · intro n hsp hn
    simp [Reader.read_duration, readExact_of_le h8, hu, hsp, hn]
  · intro c m n hsp hm hn
    simp [Reader.read_duration, readExact_of_le h8, hu, hsp, hm, hn]
  · intro c m v hsp hm hv
    cases v with
    | zero => exact absurd rfl hv
    | succ k => simp [Reader.read_duration, readExact_of_le h8, hu, hsp, hm]

/-- C4 witness: the field text `"1.0     "` yields duration 1. -/
theorem duration_parsing_witness :
    Reader.read_duration (ascii "1.0     ") = .ok 1 [] := by
  have h := (duration_parsing (ascii "1.0     ") (by decide) (by decide)).2.1
    [49] [48] 1 (by decide) (by decide) (by decide)
  exact h.trans (by decide)

/-- C10: an 8-byte duration field containing a decimal point whose
fractional substring does not parse as an unsigned 8-bit integer (empty,
non-numeric, or a second decimal point) aborts the parse; it is never
treated as a whole-number duration and no header is produced. -/
theorem duration_bad_mantissa (f : Stream) (h8 : 8 ≤ f.length)
    (hu : validUtf8 (f.take 8) = true) (c m : List Nat)
    (hsp : splitOnceDot (trimEndBytes (f.take 8)) = some (c, m))
    (hm : rustParseUnsigned 255 m = none) :
    Reader.read_duration f = .panic "Could not parse mantissa of duration" := by
  simp [Reader.read_duration, readExact_of_le h8, hu, hsp, hm]

/-- C10 witness: the field text `"1.      "` (empty fraction) aborts. -/
theorem duration_bad_mantissa_witness :
    Reader.read_duration (ascii "1.      ") = .panic "Could not parse mantissa of duration" :=
  duration_bad_mantissa (ascii "1.      ") (by decide) (by decide) [49] []
    (by decide) (by decide)

/-- C5: the 8-byte version field is accepted exactly when its first byte is
ASCII `'0'` and the remaining seven bytes are ASCII spaces; any other
content yields the Header/InvalidVersion error. -/
theorem version_check (f : Stream) (h8 : 8 ≤ f.length) :
    (Reader.read_version f = .ok () (f.drop 8) ↔
      (f.take 8).getD 0 0 = 48 ∧ ∀ b ∈ (f.take 8).drop 1, b = 32) ∧
    (¬((f.take 8).getD 0 0 = 48 ∧ ∀ b ∈ (f.take 8).drop 1, b = 32) →
      Reader.read_version f = .err (.header .invalidVersion)) := by
  have hall : (((f.take 8).drop 1).all (fun b => b == 32) = true) ↔
      ∀ b ∈ (f.take 8).drop 1, b = 32 := by
    simp [List.all_eq_true]
  have e := read_version_eq f h8
  by_cases hb0 : (f.take 8).getD 0 0 = 48
  · rw [if_neg (fun hne => hne hb0)] at e
    by_cases hsp : ((f.take 8).drop 1).all (fun b => b == 32) = true
    · rw [if_pos hsp] at e
      constructor
      · rw [e]
        exact ⟨fun _ => ⟨hb0, hall.mp hsp⟩, fun _ => rfl⟩
      · intro hcontra
        exact absurd ⟨hb0, hall.mp hsp⟩ hcontra
    · rw [if_neg hsp] at e
      have hnall : ¬∀ b ∈ (f.take 8).drop 1, b = 32 := fun hx => hsp (hall.mpr hx)
      constructor
      · rw [e]
        exact ⟨fun hcon => absurd hcon (by simp), fun hcon => absurd hcon.2 hnall⟩
      · intro hx
        exact e
  · rw [if_pos hb0] at e
    constructor
    · rw [e]
      exact ⟨fun hcon => absurd hcon (by simp), fun hcon => absurd hcon.1 hb0⟩
    · intro hx
      exact e

/-- C5 witness: the version field `"0       "` is accepted. -/
theorem version_check_witness :
    Reader.read_version (ascii "0       ") = .ok () [] := by
  have h := (version_check (ascii "0       ") (by decide)).1.mpr (by decide)
  exact h.trans (by decide)

/-- C8: a text field whose bytes are not valid UTF-8 makes the parse fail
with the encoding error, and every text field of a successfully returned
header is valid UTF-8. -/
theorem text_fields_valid_utf8 (f : Stream) :
    (∀ h rest, Reader.read_header f = .ok h rest →
      validUtf8 h.patient_info = true ∧ validUtf8 h.recording_id = true ∧
      validUtf8 h.reserved = true) ∧
    (80 ≤ f.length → validUtf8 (f.take 80) = false →
      Reader.read_patient_info f = .err .utf8 ∧
      Reader.read_recording_id f = .err .utf8) ∧
    (44 ≤ f.length → validUtf8 (f.take 44) = false →
      Reader.read_reserved f = .err .utf8) ∧
    (8 ≤ f.length → validUtf8 (f.take 8) = false →
      Reader.read_start_date f = .err .utf8 ∧
      Reader.read_start_time f = .err .utf8 ∧
      Reader.read_header_size f = .err .utf8 ∧
      Reader.read_records_len f = .err .utf8 ∧
      Reader.read_duration f = .err .utf8) ∧
    (4 ≤ f.length → validUtf8 (f.take 4) = false →
      Reader.read_signals_len f = .err .utf8) := by
  refine ⟨?_, ?_, ?_, ?_, ?_⟩
  · intro h rest hok
    obtain ⟨-, hp, hr, hv⟩ := read_header_ok_inv hok
    exact ⟨hp, hr, hv⟩
  · intro hlen hbad
    constructor
    · simp [Reader.read_patient_info, readExact_of_le hlen, hbad]
    · simp [Reader.read_recording_id, readExact_of_le hlen, hbad]
  · intro hlen hbad
    simp [Reader.read_reserved, readExact_of_le hlen, hbad]
  · intro hlen hbad
    refine ⟨?_, ?_, ?_, ?_, ?_⟩
    · simp [Reader.read_start_date, readExact_of_le hlen, hbad]
    · simp [Reader.read_start_time, readExact_of_le hlen, hbad]
    · simp [Reader.read_header_size, readExact_of_le hlen, hbad]
    · simp [Reader.read_records_len, readExact_of_le hlen, hbad]
    · simp [Reader.read_duration, readExact_of_le hlen, hbad]
  · intro hlen hbad
    simp [Reader.read_signals_len, readExact_of_le hlen, hbad]

/-- C8 witness: a patient_info field starting with the invalid byte 255
fails with the encoding error. -/
theorem text_fields_valid_utf8_witness :
    Reader.read_patient_info (255 :: List.replicate 79 32) = .err .utf8 :=
  ((text_fields_valid_utf8 (255 :: List.replicate 79 32)).2.1 (by decide) (by decide)).1

/-- A small concrete header used to exhibit the rendering's leading
newline. -/
def smallHeader : Header :=
  { patient_info := ascii "P"
    recording_id := ascii "R"
    start_datetime := ⟨⟨1995, 3, 2⟩, ⟨10, 0, 0⟩⟩
    size := 256
    reserved := ascii "res"
    records_len := none
    duration := 1
    signals_len := 4 }

/-- C9 counterexample: the code's rendering of a concrete header is not the
spec's canonical template — it carries an extra leading newline. -/
theorem display_not_spec_template :
    Header.display smallHeader ≠ specCanonicalRendering smallHeader := by
  decide

/-- C9 amended: the rendering of every header equals a newline followed by
the canonical template (same lines, one extra leading newline byte). -/
theorem display_is_newline_then_template (h : Header) :
    Header.display h = 10 :: specCanonicalRendering h := by
  unfold Header.display specCanonicalRendering
  rw [show ascii "\n## Header\n" = 10 :: ascii "## Header\n" from by decide]
  simp only [List.cons_append]

end Edf
